import Mathlib

set_option maxRecDepth 100000

/-!
Verification development for `slmgr.py`, a CLI that inspects and manages
MAME software list definitions.  The Python source is shallowly embedded:
pure string manipulation becomes structural functions over `List Char`,
and the effectful import pipeline becomes a deterministic trace monad
`M α = List Event → List Event × PyRes α` over an environment `Env`
describing the filesystem and the external tools.
-/

namespace Slmgr

/-! ### String utilities, modelling the Python string operations used -/

/-- Python `s.split(sep)` for a single-character separator: split at every
occurrence, keeping empty fields; the result is always nonempty. -/
def splitChar (c : Char) : List Char → List (List Char)
  | [] => [[]]
  | d :: ds =>
    match splitChar c ds with
    | r :: rs => if d = c then [] :: r :: rs else (d :: r) :: rs
    | [] => if d = c then [[], []] else [[d]]

/-- Python `" ".join(l)`. -/
def joinSpace : List String → String
  | [] => ""
  | [s] => s
  | s :: rest => s ++ " " ++ joinSpace rest

/-- Characters stripped by Python `str.strip()`. -/
def pySpace (c : Char) : Bool :=
  c = ' ' || c = '\t' || c = '\n' || c = '\r' || c = Char.ofNat 11 || c = Char.ofNat 12

/-- Python `str.strip()`. -/
def pyStrip (s : String) : String :=
  String.mk ((((s.data.dropWhile pySpace).reverse.dropWhile pySpace).reverse))

/-- Python `str.lower()`, on the ASCII inputs this tool handles. -/
def pyLower (l : List Char) : List Char :=
  l.map Char.toLower

/-- Python `pathlib.Path(p).name`: the final path component (file paths here have
no trailing slash). -/
def pathName (s : String) : List Char :=
  (splitChar '/' s.data).getLastD []

/-- Index of the last `'.'` in a file name, as in CPython's
`rfind('.')` used by `pathlib` for stem/suffix. -/
def rfindDot (name : List Char) : Option Nat :=
  ((name.enum.filter (fun p => p.2 = '.')).map Prod.fst).getLast?

/-- Python `pathlib.PurePath.stem`: the name without its suffix; a dot at the very
start or very end does not begin a suffix. -/
def pyStem (name : List Char) : List Char :=
  match rfindDot name with
  | some i => if 0 < i ∧ i < name.length - 1 then name.take i else name
  | none => name

/-- Python `pathlib.PurePath.suffix`: the extension from the last dot, empty when
the dot is leading or trailing or absent. -/
def pySuffix (name : List Char) : List Char :=
  match rfindDot name with
  | some i => if 0 < i ∧ i < name.length - 1 then name.drop i else []
  | none => []

/-- Python `pathlib.Path(filename).suffix.lower()` as computed in `importpart`
and `getSha1`. -/
def lowerSuffix (filename : String) : String :=
  String.mk (pyLower (pySuffix (pathName filename)))

/-- A word character of `re.ASCII`: `[a-zA-Z0-9_]`. -/
def isWordChar (c : Char) : Bool :=
  c.isAlphanum || c = '_'

/-- Worker for `re.sub(r"\W+", "_", s, flags=re.ASCII)`: the flag records
whether we are inside a non-word run that has already emitted its `'_'`. -/
def subNonWordAux : Bool → List Char → List Char
  | _, [] => []
  | inRun, c :: cs =>
    if isWordChar c then c :: subNonWordAux false cs
    else if inRun then subNonWordAux true cs
    else '_' :: subNonWordAux true cs

/-- Python `re.sub(r"\W+", "_", s, flags=re.ASCII)`: each maximal run of
non-word characters becomes a single underscore. -/
def subNonWord (l : List Char) : List Char :=
  subNonWordAux false l

/-- Python `os.path.join` for the two-component joins used by the tool. -/
def osJoin (a b : String) : String :=
  a ++ "/" ++ b

/-- Embeds `getOutputName` (slmgr.py lines 48-54): lowercase the stem, replace
runs of non-word characters by one underscore, drop one trailing
underscore (`output_name[0:-1]`) when the result ends with `'_'`. -/
def getOutputName (filename : String) : String :=
  let base_name := pyLower (pyStem (pathName filename))
  let output_name := subNonWord base_name
  String.mk (if output_name.getLast? = some '_' then output_name.dropLast else output_name)

/-- Contiguous-sublist test on character lists. -/
def infixAt (sub : List Char) : List Char → Bool
  | [] => sub.isEmpty
  | c :: cs => sub.isPrefixOf (c :: cs) || infixAt sub cs

/-- Substring test, used only to state properties of emitted XML. -/
def hasSub (s sub : String) : Bool :=
  infixAt sub.data s.data

example : getOutputName "My Game!.img" = "my_game" := by decide
example : getOutputName "ab!__.img" = "ab__" := by decide
example : lowerSuffix "dir/Foo.CHD" = ".chd" := by decide
example : pyStrip "  ab c \n" = "ab c" := by decide
example : splitChar ':' "a::b".data = ["a".data, [], "b".data] := by decide

/-! ### The effect model -/

/-- An uncaught Python exception. -/
inductive PyError
  | nameError
  | valueError
deriving DecidableEq, Repr

/-- Observable side effects of one run of the tool: messages echoed to
stderr and stdout, directory creation, file copies and subprocess
invocations, in order. -/
inductive Event
  | echoErr : String → Event
  | echoOut : String → Event
  | makedirs : String → Event
  | copy : String → String → Event
  | ran : List String → Event
deriving DecidableEq, Repr

/-- Outcome of a run: normal return, `sys.exit(code)`, or an uncaught
Python exception. -/
inductive PyRes (α : Type)
  | ok : α → PyRes α
  | exited : Nat → PyRes α
  | raised : PyError → PyRes α
deriving DecidableEq, Repr

/-- Map over the normal result of a run. -/
def resMap {α β : Type} (f : α → β) : PyRes α → PyRes β
  | .ok a => .ok (f a)
  | .exited c => .exited c
  | .raised e => .raised e

/-- The execution model: a computation produces the ordered list of its
side effects and its outcome (return, exit, or raise).  The embedded
program never inspects its own past effects, so this writer-style monad
is adequate. -/
abbrev M (α : Type) : Type :=
  List Event × PyRes α

def mPure {α : Type} (a : α) : M α :=
  ([], .ok a)

def mBind {α β : Type} (m : M α) (f : α → M β) : M β :=
  match m with
  | (ev, .ok a) => (ev ++ (f a).1, (f a).2)
  | (ev, .exited c) => (ev, .exited c)
  | (ev, .raised e) => (ev, .raised e)

instance : Monad M where
  pure := mPure
  bind := mBind

/-- Record one side effect. -/
def emit (e : Event) : M Unit :=
  ([e], .ok ())

/-- Python `sys.exit(code)`. -/
def pyExit {α : Type} (code : Nat) : M α :=
  ([], .exited code)

/-- An uncaught exception. -/
def pyRaise {α : Type} (e : PyError) : M α :=
  ([], .raised e)

/-- Outcome of a computation. -/
def runRes {α : Type} (m : M α) : PyRes α :=
  m.2

/-- The side effects of a computation, in order. -/
def runTrace {α : Type} (m : M α) : List Event :=
  m.1

/-- The strings echoed to standard output in a trace. -/
def echoOuts (tr : List Event) : List String :=
  tr.filterMap (fun e =>
    match e with
    | .echoOut s => some s
    | _ => none)

/-- The environment: which executables are on PATH, what each subprocess
invocation returns (exit code and combined output), file sizes, path
existence, and glob results. -/
structure Env where
  which : String → Bool
  run : List String → Nat × String
  size : String → Nat
  pathExists : String → Bool
  glob : String → List String

/-! ### The embedded program (slmgr.py) -/

/-- Embeds `requireCommands` (lines 16-26): collect the commands not on PATH;
if any, echo one combined message to stderr and exit 1. -/
def requireCommands (env : Env) (commands : List String) : M Unit := do
  let missing := commands.filter (fun cmd => env.which cmd = false)
  if missing.length > 0 then do
    emit (.echoErr ("Required commands not found: " ++ joinSpace missing))
    pyExit 1
  else
    pure ()

/-- Embeds `runCommand` (lines 29-37): run the subprocess; on a non-zero exit
code echo its captured output to stderr and exit 1, else return the
output. -/
def runCommand (env : Env) (cmd : List String) : M String := do
  emit (.ran cmd)
  let r := env.run cmd
  if r.1 ≠ 0 then do
    emit (.echoErr r.2)
    pyExit 1
  else
    pure r.2

/-- Python `sorted` on strings: the unique ≤-sorted permutation. -/
def pySort (l : List String) : List String :=
  List.insertionSort (fun a b => a ≤ b) l

/-- Embeds `getSoftwareLists` (lines 40-45): stems of `glob("hash/*.xml")`,
sorted. A missing directory globs to the empty list. -/
def getSoftwareLists (env : Env) : List String :=
  pySort ((env.glob (osJoin "hash" "*.xml")).map (fun p => String.mk (pyStem (pathName p))))

/-- Embeds `getRomPath` (lines 57-61): `roms/<sl>/<name>`, created when absent. -/
def getRomPath (env : Env) (sl name : String) : M String := do
  let rom_path := osJoin (osJoin "roms" sl) name
  if env.pathExists rom_path = false then do
    emit (.makedirs rom_path)
    pure rom_path
  else
    pure rom_path

/-- Embeds `getCrc32` (lines 64-67). -/
def getCrc32 (env : Env) (filename : String) : M String := do
  requireCommands env ["crc32"]
  let out ← runCommand env ["crc32", filename]
  pure (pyStrip out)

/-- The scan over `chdman info` output lines in `getSha1` (lines 75-81):
skip lines without a colon; unpack `key, value = line.split(":")`, which
raises `ValueError` unless the line has exactly one colon; break on key
`SHA1`; falling off the loop leaves `sha1` unbound (`NameError`). -/
def chdSha1Scan : List String → Except PyError String
  | [] => .error .nameError
  | line :: rest =>
    if line.data.any (fun c => c = ':') then
      match splitChar ':' line.data with
      | [key, value] =>
        if String.mk key = "SHA1" then .ok (pyStrip (String.mk value)) else chdSha1Scan rest
      | _ => .error .valueError
    else
      chdSha1Scan rest

/-- Embeds `getSha1` (lines 70-86): for `.chd` files parse the `chdman info`
output, otherwise take the first word of `sha1sum` output. -/
def getSha1 (env : Env) (filename : String) : M String := do
  requireCommands env ["chdman", "sha1sum"]
  if lowerSuffix filename = ".chd" then do
    let out ← runCommand env ["chdman", "info", "-i", filename]
    match chdSha1Scan ((splitChar '\n' out.data).map String.mk) with
    | .ok sha1 => pure sha1
    | .error e => pyRaise e
  else do
    let out ← runCommand env ["sha1sum", filename]
    pure (pyStrip (String.mk ((splitChar ' ' out.data).headD [])))

/-- Embeds `importcd` (lines 93-104). -/
def importcd (env : Env) (sl name filename : String) : M (String × String) := do
  requireCommands env ["chdman"]
  let rom_path ← getRomPath env sl name
  let output_name := getOutputName filename
  let output := output_name ++ ".chd"
  let _ ← runCommand env ["chdman", "createcd", "-i", filename, "-o", osJoin rom_path output]
  let sha1 ← getSha1 env (osJoin rom_path output)
  pure (output_name, sha1)

/-- Embeds `importhdd` (lines 107-127). -/
def importhdd (env : Env) (sl name filename : String) : M (String × String) := do
  requireCommands env ["chdman"]
  let rom_path ← getRomPath env sl name
  let output_name := getOutputName filename
  let output := output_name ++ ".chd"
  let _ ← runCommand env
    ["chdman", "copy", "-c", "lzma,zlib,huff,flac", "-i", filename, "-o", osJoin rom_path output]
  let sha1 ← getSha1 env (osJoin rom_path output)
  pure (output_name, sha1)

/-- Embeds `importflop` (lines 130-139): copy the file verbatim into the rom
path, then hash and measure the original; note the returned name is the
raw base name of the input, extension included. -/
def importflop (env : Env) (sl name filename : String) : M (String × String × String × Nat) := do
  let rom_path ← getRomPath env sl name
  let base_name := String.mk (pathName filename)
  emit (.copy filename rom_path)
  let crc32 ← getCrc32 env filename
  let sha1 ← getSha1 env filename
  let size := env.size filename
  pure (base_name, sha1, crc32, size)

/-! ### Part construction and XML rendering (importpart, lines 142-178) -/

/-- One `<part>`: its name, interface and data-area stanza. -/
structure Part where
  partname : String
  interface : String
  dataarea : String
deriving DecidableEq, Repr

/-- Lines 146-148 (and 158-160, 165-167): append the occurrence count to
the base part name when it is positive. -/
def countedName (base : String) (count : Nat) : String :=
  if count > 0 then base ++ toString count else base

/-- Lines 149-154: hard-disk interface from the list name. -/
def hddInterface (sl : String) : String :=
  if sl = "ibm5150_hdd" then "st_hdd"
  else if sl = "ibm5170_hdd" then "ide_hdd"
  else "scsi_hdd"

/-- Lines 168-173: floppy interface from the byte size. -/
def flopInterface (size : Nat) : String :=
  if size = 368640 ∨ size = 1228800 then "floppy_5_25"
  else if size = 737280 ∨ size = 1474560 then "floppy_3_5"
  else "TODO"

/-- Line 155: the hard-disk `<diskarea>` stanza. -/
def hddDataarea (output_name sha1 : String) : String :=
  "\t\t\t<diskarea name=\"harddriv\">\n\t\t\t\t<disk name=\"" ++ output_name
    ++ "\" sha1=\"" ++ sha1 ++ "\" writeable=\"yes\" />\n\t\t\t</diskarea>"

/-- Line 162: the CD-ROM `<diskarea>` stanza. -/
def cdDataarea (output_name sha1 : String) : String :=
  "\t\t\t<diskarea name=\"cdrom\">\n\t\t\t\t<disk name=\"" ++ output_name
    ++ "\" sha1=\"" ++ sha1 ++ "\" />\n\t\t\t</diskarea>"

/-- Line 174: the floppy `<dataarea>` stanza. -/
def flopDataarea (output_name : String) (size : Nat) (crc32 sha1 : String) : String :=
  "\t\t\t<dataarea name=\"flop\" size=\"" ++ toString size
    ++ "\">\n\t\t\t\t<rom name=\"" ++ output_name ++ "\" size=\"" ++ toString size
    ++ "\" crc=\"" ++ crc32 ++ "\" sha1=\"" ++ sha1 ++ "\"/>\n\t\t\t</dataarea>"

/-- The `.chd` branch of `importpart` (lines 144-155). -/
def partInfoChd (sl output_name sha1 : String) (count : Nat) : Part :=
  ⟨countedName "hdd" count, hddInterface sl, hddDataarea output_name sha1⟩

/-- The `.iso` branch of `importpart` (lines 156-162). -/
def partInfoCd (output_name sha1 : String) (count : Nat) : Part :=
  ⟨countedName "cdrom" count, "cdrom", cdDataarea output_name sha1⟩

/-- The floppy branch of `importpart` (lines 163-174). -/
def partInfoFlop (output_name sha1 crc32 : String) (size count : Nat) : Part :=
  ⟨countedName "flop" count, flopInterface size, flopDataarea output_name size crc32 sha1⟩

/-- Line 176: render one `<part>` element. -/
def renderPart (p : Part) : String :=
  "\t\t<part name=\"" ++ p.partname ++ "\" interface=\"" ++ p.interface
    ++ "\">\n" ++ p.dataarea ++ "\n\t\t</part>"

/-- Embeds `importpart` (lines 142-178): classify by lowercase extension,
delegate, and render the part. -/
def importpart (env : Env) (sl name filename : String) (count : Nat) : M String := do
  if lowerSuffix filename = ".chd" then do
    let r ← importhdd env sl name filename
    pure (renderPart (partInfoChd sl r.1 r.2 count))
  else if lowerSuffix filename = ".iso" then do
    let r ← importcd env sl name filename
    pure (renderPart (partInfoCd r.1 r.2 count))
  else do
    let r ← importflop env sl name filename
    pure (renderPart (partInfoFlop r.1 r.2.1 r.2.2.1 r.2.2.2 count))

/-- The loop of `importparts` (lines 187-189): each file is imported with
the current count, which increases by one per file. -/
def importpartsLoop (env : Env) (sl name : String) : List String → Nat → M (List String)
  | [], _ => pure []
  | f :: fs, count => do
    let p ← importpart env sl name f count
    let ps ← importpartsLoop env sl name fs (count + 1)
    pure (p :: ps)

/-- Line 191: the `<software>` element header with placeholder fields. -/
def softwareHeader (name : String) : String :=
  "\t<software name=\"" ++ name
    ++ "\">\n\t\t<description>TODO</description>\n\t\t<year>TODO</year>\n\t\t<publisher>TODO</publisher>\n"

/-- Lines 192-193: append each part followed by a newline. -/
def joinPartsNl : List String → String
  | [] => ""
  | p :: ps => p ++ "\n" ++ joinPartsNl ps

/-- Lines 191-196: the full `<software>` fragment. -/
def renderSoftware (name : String) (parts : List String) : String :=
  softwareHeader name ++ joinPartsNl parts ++ "\t</software>"

/-- Embeds `importparts` (lines 181-196): the starting count is 0 for a single
file and 1 otherwise. -/
def importparts (env : Env) (sl name : String) (filenames : List String) : M String := do
  let count := if filenames.length = 1 then 0 else 1
  let parts ← importpartsLoop env sl name filenames count
  pure (renderSoftware name parts)

/-- The `list` subcommand (lines 205-208): echo each list name. -/
def echoLines : List String → M Unit
  | [] => pure ()
  | s :: rest => do
    emit (.echoOut s)
    echoLines rest

/-- The `list` subcommand body. -/
def listCmd (env : Env) : M Unit :=
  echoLines (getSoftwareLists env)

/-- The `importp` subcommand (lines 211-221): reject names longer than 16
characters with a stderr message and exit 1, else import and echo the
XML to standard output. -/
def importp (env : Env) (sl name : String) (filenames : List String) : M Unit := do
  if name.length > 16 then do
    emit (.echoErr (name ++ " must be 16 chars or less"))
    pyExit 1
  else do
    let xml ← importparts env sl name filenames
    emit (.echoOut xml)

/-! ### Concrete environments for evaluating the model -/

/-- Canned successful tool runs: `crc32` prints a checksum, `sha1sum`
prints `hash  filename`, `chdman info` prints a report containing a
`SHA1:` line, conversions print nothing. -/
def goodRun : List String → Nat × String
  | "crc32" :: _ => (0, "cafe1234\n")
  | "sha1sum" :: _ => (0, "0123abcd lastfile\n")
  | "chdman" :: "info" :: _ => (0, "Input file: x.chd\nSHA1: feedface\n")
  | _ => (0, "")

/-- Everything present and succeeding; raw files are 1474560 bytes. -/
def envAllOk : Env :=
  ⟨fun _ => true, goodRun, fun _ => 1474560, fun _ => false, fun _ => []⟩

/-- Like `envAllOk` but raw files are 368640 bytes (for numbering runs). -/
def envSmallFlop : Env :=
  ⟨fun _ => true, goodRun, fun _ => 368640, fun _ => false, fun _ => []⟩

example :
    runRes (importpart envAllOk "pc_xt" "mygame" "My Game!.img" 0) =
      .ok (renderPart (partInfoFlop "My Game!.img" "0123abcd" "cafe1234" 1474560 0)) := by
  decide

example :
    runTrace (importpart envAllOk "pc_xt" "mygame" "My Game!.img" 0) =
      [.makedirs "roms/pc_xt/mygame", .copy "My Game!.img" "roms/pc_xt/mygame",
       .ran ["crc32", "My Game!.img"], .ran ["sha1sum", "My Game!.img"]] := by
  decide

/-! ### Generic lemmas about the effect model -/

@[simp] theorem bindDef {α β : Type} (m : M α) (f : α → M β) : m >>= f = mBind m f := rfl

@[simp] theorem pureDef {α : Type} (a : α) : (pure a : M α) = mPure a := rfl

theorem echoOuts_append (a b : List Event) :
    echoOuts (a ++ b) = echoOuts a ++ echoOuts b := by
  simp [echoOuts]

/-- A computation that never echoes to standard output. -/
def NoOut {α : Type} (m : M α) : Prop :=
  echoOuts m.1 = []

theorem noOut_mPure {α : Type} (a : α) : NoOut (mPure a) := rfl

theorem noOut_pyExit {α : Type} (c : Nat) : NoOut (pyExit (α := α) c) := rfl

theorem noOut_pyRaise {α : Type} (e : PyError) : NoOut (pyRaise (α := α) e) := rfl

theorem noOut_emit (e : Event) (h : echoOuts [e] = []) : NoOut (emit e) := h

theorem noOut_mBind {α β : Type} (m : M α) (f : α → M β)
    (h1 : NoOut m) (h2 : ∀ a, NoOut (f a)) : NoOut (mBind m f) := by
  unfold NoOut at *
  unfold mBind
  rcases m with ⟨ev, res⟩
  cases res with
  | ok a => simpa [echoOuts_append, h1] using h2 a
  | exited c => simpa using h1
  | raised e => simpa using h1

theorem noOut_ite {α : Type} (c : Prop) [Decidable c] (m₁ m₂ : M α)
    (h1 : NoOut m₁) (h2 : NoOut m₂) : NoOut (if c then m₁ else m₂) := by
  by_cases hc : c
  · simpa [hc] using h1
  · simpa [hc] using h2

theorem noOut_requireCommands (env : Env) (cmds : List String) :
    NoOut (requireCommands env cmds) := by
  unfold requireCommands
  simp only [bindDef, pureDef]
  exact noOut_ite _ _ _
    (noOut_mBind _ _ (noOut_emit _ rfl) (fun _ => noOut_pyExit 1)) (noOut_mPure ())

theorem noOut_runCommand (env : Env) (cmd : List String) :
    NoOut (runCommand env cmd) := by
  unfold runCommand
  simp only [bindDef, pureDef]
  exact noOut_mBind _ _ (noOut_emit _ rfl) (fun _ =>
    noOut_ite _ _ _
      (noOut_mBind _ _ (noOut_emit _ rfl) (fun _ => noOut_pyExit 1)) (noOut_mPure _))

theorem noOut_getRomPath (env : Env) (sl name : String) :
    NoOut (getRomPath env sl name) := by
  unfold getRomPath
  simp only [bindDef, pureDef]
  exact noOut_ite _ _ _
    (noOut_mBind _ _ (noOut_emit _ rfl) (fun _ => noOut_mPure _)) (noOut_mPure _)

theorem noOut_getCrc32 (env : Env) (filename : String) :
    NoOut (getCrc32 env filename) := by
  unfold getCrc32
  simp only [bindDef, pureDef]
  exact noOut_mBind _ _ (noOut_requireCommands _ _) (fun _ =>
    noOut_mBind _ _ (noOut_runCommand _ _) (fun _ => noOut_mPure _))

theorem noOut_getSha1 (env : Env) (filename : String) :
    NoOut (getSha1 env filename) := by
  unfold getSha1
  simp only [bindDef, pureDef]
  refine noOut_mBind _ _ (noOut_requireCommands _ _) (fun _ => noOut_ite _ _ _ ?_ ?_)
  · refine noOut_mBind _ _ (noOut_runCommand _ _) (fun out => ?_)
    cases chdSha1Scan ((splitChar '\n' out.data).map String.mk) with
    | ok s => exact noOut_mPure _
    | error e => exact noOut_pyRaise _
  · exact noOut_mBind _ _ (noOut_runCommand _ _) (fun _ => noOut_mPure _)

theorem noOut_importcd (env : Env) (sl name filename : String) :
    NoOut (importcd env sl name filename) := by
  unfold importcd
  simp only [bindDef, pureDef]
  exact noOut_mBind _ _ (noOut_requireCommands _ _) (fun _ =>
    noOut_mBind _ _ (noOut_getRomPath _ _ _) (fun _ =>
      noOut_mBind _ _ (noOut_runCommand _ _) (fun _ =>
        noOut_mBind _ _ (noOut_getSha1 _ _) (fun _ => noOut_mPure _))))

theorem noOut_importhdd (env : Env) (sl name filename : String) :
    NoOut (importhdd env sl name filename) := by
  unfold importhdd
  simp only [bindDef, pureDef]
  exact noOut_mBind _ _ (noOut_requireCommands _ _) (fun _ =>
    noOut_mBind _ _ (noOut_getRomPath _ _ _) (fun _ =>
      noOut_mBind _ _ (noOut_runCommand _ _) (fun _ =>
        noOut_mBind _ _ (noOut_getSha1 _ _) (fun _ => noOut_mPure _))))

theorem noOut_importflop (env : Env) (sl name filename : String) :
    NoOut (importflop env sl name filename) := by
  unfold importflop
  simp only [bindDef, pureDef]
  exact noOut_mBind _ _ (noOut_getRomPath _ _ _) (fun _ =>
    noOut_mBind _ _ (noOut_emit _ rfl) (fun _ =>
      noOut_mBind _ _ (noOut_getCrc32 _ _) (fun _ =>
        noOut_mBind _ _ (noOut_getSha1 _ _) (fun _ => noOut_mPure _))))

theorem noOut_importpart (env : Env) (sl name filename : String) (count : Nat) :
    NoOut (importpart env sl name filename count) := by
  unfold importpart
  simp only [bindDef, pureDef]
  refine noOut_ite _ _ _ ?_ (noOut_ite _ _ _ ?_ ?_)
  · exact noOut_mBind _ _ (noOut_importhdd _ _ _ _) (fun _ => noOut_mPure _)
  · exact noOut_mBind _ _ (noOut_importcd _ _ _ _) (fun _ => noOut_mPure _)
  · exact noOut_mBind _ _ (noOut_importflop _ _ _ _) (fun _ => noOut_mPure _)

theorem noOut_importpartsLoop (env : Env) (sl name : String)
    (filenames : List String) (count : Nat) :
    NoOut (importpartsLoop env sl name filenames count) := by
  induction filenames generalizing count with
  | nil => exact noOut_mPure _
  | cons f fs ih =>
    unfold importpartsLoop
    simp only [bindDef, pureDef]
    exact noOut_mBind _ _ (noOut_importpart _ _ _ _ _) (fun _ =>
      noOut_mBind _ _ (ih _) (fun _ => noOut_mPure _))

theorem noOut_importparts (env : Env) (sl name : String) (filenames : List String) :
    NoOut (importparts env sl name filenames) := by
  unfold importparts
  simp only [bindDef, pureDef]
  exact noOut_mBind _ _ (noOut_importpartsLoop _ _ _ _ _) (fun _ => noOut_mPure _)

/-! ### Success-path characterizations -/

theorem mBind_eq_ok {α β : Type} {m : M α} {f : α → M β} {tr2 : List Event} {b : β}
    (h : mBind m f = (tr2, .ok b)) :
    ∃ ev1 ev2 a, m = (ev1, .ok a) ∧ f a = (ev2, .ok b) ∧ tr2 = ev1 ++ ev2 := by
  unfold mBind at h
  rcases m with ⟨ev, res⟩
  cases res with
  | ok a =>
    simp only [] at h
    injection h with h1 h2
    exact ⟨ev, (f a).1, a, rfl, Prod.ext rfl h2, h1.symm⟩
  | exited c =>
    simp only [] at h
    injection h with h1 h2
    exact PyRes.noConfusion h2
  | raised e =>
    simp only [] at h
    injection h with h1 h2
    exact PyRes.noConfusion h2

/-- The helper `getRomPath` always succeeds with the fixed path, creating it exactly
when it does not exist. -/
theorem getRomPath_run (env : Env) (sl name : String) :
    getRomPath env sl name =
      ((if env.pathExists (osJoin (osJoin "roms" sl) name) = false
          then [Event.makedirs (osJoin (osJoin "roms" sl) name)] else []),
        .ok (osJoin (osJoin "roms" sl) name)) := by
  unfold getRomPath
  simp only [bindDef, pureDef]
  by_cases hc : env.pathExists (osJoin (osJoin "roms" sl) name) = false
  · simp [hc, mBind, emit, mPure]
  · simp [hc, mPure]

/-- On success, `importflop` returns the verbatim base name of its input
(extension included) as the rom name, the size of the input, and its
trace records the verbatim copy of the input into the rom directory. -/
theorem importflop_ok {env : Env} {sl name filename : String} {tr : List Event}
    {r : String × String × String × Nat}
    (h : importflop env sl name filename = (tr, .ok r)) :
    r.1 = String.mk (pathName filename) ∧ r.2.2.2 = env.size filename ∧
      Event.copy filename (osJoin (osJoin "roms" sl) name) ∈ tr := by
  unfold importflop at h
  simp only [bindDef, pureDef] at h
  obtain ⟨ev1, ev2, rp, hrp, h2, htr⟩ := mBind_eq_ok h
  rw [getRomPath_run] at hrp
  have hrp2 : rp = osJoin (osJoin "roms" sl) name := by
    have := congrArg Prod.snd hrp
    simpa using this.symm
  subst hrp2
  obtain ⟨ev3, ev4, u, hem, h3, htr2⟩ := mBind_eq_ok h2
  obtain ⟨ev5, ev6, crc, hcrc, h4, htr3⟩ := mBind_eq_ok h3
  obtain ⟨ev7, ev8, sha, hsha, h5, htr4⟩ := mBind_eq_ok h4
  unfold mPure at h5
  have hr : r = (String.mk (pathName filename), sha, crc, env.size filename) := by
    have := congrArg Prod.snd h5
    simpa using this.symm
  have hem1 : ev3 = [Event.copy filename (osJoin (osJoin "roms" sl) name)] := by
    have := congrArg Prod.fst hem
    simpa [emit] using this.symm
  subst htr htr2 htr3 htr4
  refine ⟨by simp [hr], by simp [hr], ?_⟩
  simp [hem1]

/-- On success, `importhdd` returns `getOutputName filename` as the disk
name: the output-naming rule applies on the hard-disk path. -/
theorem importhdd_ok {env : Env} {sl name filename : String} {tr : List Event}
    {r : String × String}
    (h : importhdd env sl name filename = (tr, .ok r)) :
    r.1 = getOutputName filename := by
  unfold importhdd at h
  simp only [bindDef, pureDef] at h
  obtain ⟨ev1, ev2, u, hrc, h2, htr⟩ := mBind_eq_ok h
  obtain ⟨ev3, ev4, rp, hrp, h3, htr2⟩ := mBind_eq_ok h2
  obtain ⟨ev5, ev6, o, hrun, h4, htr3⟩ := mBind_eq_ok h3
  obtain ⟨ev7, ev8, sha, hsha, h5, htr4⟩ := mBind_eq_ok h4
  unfold mPure at h5
  have := congrArg Prod.snd h5
  simp at this
  simp [← this]

/-- On success, `importcd` returns `getOutputName filename` as the disk
name: the output-naming rule applies on the CD path. -/
theorem importcd_ok {env : Env} {sl name filename : String} {tr : List Event}
    {r : String × String}
    (h : importcd env sl name filename = (tr, .ok r)) :
    r.1 = getOutputName filename := by
  unfold importcd at h
  simp only [bindDef, pureDef] at h
  obtain ⟨ev1, ev2, u, hrc, h2, htr⟩ := mBind_eq_ok h
  obtain ⟨ev3, ev4, rp, hrp, h3, htr2⟩ := mBind_eq_ok h2
  obtain ⟨ev5, ev6, o, hrun, h4, htr3⟩ := mBind_eq_ok h3
  obtain ⟨ev7, ev8, sha, hsha, h5, htr4⟩ := mBind_eq_ok h4
  unfold mPure at h5
  have := congrArg Prod.snd h5
  simp at this
  simp [← this]

/-- On success, the floppy branch of `importpart` renders a part built by
`partInfoFlop` from the verbatim base name and the file's size. -/
theorem importpart_flop_ok {env : Env} {sl name filename : String} {count : Nat}
    {tr : List Event} {s : String}
    (h1 : lowerSuffix filename ≠ ".chd") (h2 : lowerSuffix filename ≠ ".iso")
    (h : importpart env sl name filename count = (tr, .ok s)) :
    ∃ sha1 crc32, s =
      renderPart (partInfoFlop (String.mk (pathName filename)) sha1 crc32
        (env.size filename) count) := by
  unfold importpart at h
  rw [if_neg h1, if_neg h2] at h
  simp only [bindDef, pureDef] at h
  obtain ⟨ev1, ev2, r, hfl, hp, htr⟩ := mBind_eq_ok h
  obtain ⟨hname, hsize, hcopy⟩ := importflop_ok hfl
  unfold mPure at hp
  have := congrArg Prod.snd hp
  simp at this
  exact ⟨r.2.1, r.2.2.1, by simp [← this, hname, hsize]⟩

/-! ### Structure of the collapsed names produced by `getOutputName` -/

/-- No two adjacent underscores. -/
def noDoubleUnd : List Char → Bool
  | [] => true
  | [_] => true
  | a :: b :: rest => if a = '_' ∧ b = '_' then false else noDoubleUnd (b :: rest)

/-- The list does not start with an underscore. -/
def headNotUnd : List Char → Bool
  | [] => true
  | c :: _ => if c = '_' then false else true

theorem noDoubleUnd_cons_of_ne (c : Char) (t : List Char) (hc : c ≠ '_')
    (ht : noDoubleUnd t = true) : noDoubleUnd (c :: t) = true := by
  cases t with
  | nil => rfl
  | cons b rest =>
    unfold noDoubleUnd
    rw [if_neg (fun hh => hc hh.1)]
    exact ht

theorem noDoubleUnd_cons_und (t : List Char) (hh : headNotUnd t = true)
    (ht : noDoubleUnd t = true) : noDoubleUnd ('_' :: t) = true := by
  cases t with
  | nil => rfl
  | cons b rest =>
    have hb : b ≠ '_' := by
      intro e
      rw [e] at hh
      simp [headNotUnd] at hh
    unfold noDoubleUnd
    rw [if_neg (fun hhh => hb hhh.2)]
    exact ht

theorem ne_und_of_not_mem {c : Char} {l : List Char} (h : '_' ∉ l) (hc : c ∈ l) :
    c ≠ '_' := by
  intro e
  rw [e] at hc
  exact h hc

theorem headNotUnd_subNonWordAux (l : List Char) (h : '_' ∉ l) :
    headNotUnd (subNonWordAux true l) = true := by
  induction l with
  | nil => rfl
  | cons c cs ih =>
    unfold subNonWordAux
    by_cases hw : isWordChar c = true
    · rw [if_pos hw]
      have hc : c ≠ '_' := ne_und_of_not_mem h (List.mem_cons_self c cs)
      simp [headNotUnd, hc]
    · rw [if_neg hw, if_pos rfl]
      exact ih (fun m => h (List.mem_cons_of_mem _ m))

theorem noDoubleUnd_subNonWordAux (l : List Char) (h : '_' ∉ l) :
    ∀ flag, noDoubleUnd (subNonWordAux flag l) = true := by
  induction l with
  | nil => intro flag; rfl
  | cons c cs ih =>
    intro flag
    have hcs : '_' ∉ cs := fun m => h (List.mem_cons_of_mem _ m)
    unfold subNonWordAux
    by_cases hw : isWordChar c = true
    · rw [if_pos hw]
      exact noDoubleUnd_cons_of_ne c _ (ne_und_of_not_mem h (List.mem_cons_self c cs)) (ih hcs false)
    · rw [if_neg hw]
      cases flag with
      | true =>
        rw [if_pos rfl]
        exact ih hcs true
      | false =>
        rw [if_neg (by simp)]
        exact noDoubleUnd_cons_und _ (headNotUnd_subNonWordAux cs hcs) (ih hcs true)

theorem getLast_dropLast_ne (l : List Char) (hnd : noDoubleUnd l = true)
    (hl : l.getLast? = some '_') : l.dropLast.getLast? ≠ some '_' := by
  induction l with
  | nil => simp at hl
  | cons a t ih =>
    cases t with
    | nil => simp
    | cons b rest =>
      rw [List.getLast?_cons_cons] at hl
      unfold noDoubleUnd at hnd
      have hsplit : ¬(a = '_' ∧ b = '_') ∧ noDoubleUnd (b :: rest) = true := by
        by_cases hab : a = '_' ∧ b = '_'
        · rw [if_pos hab] at hnd
          exact absurd hnd (by simp)
        · rw [if_neg hab] at hnd
          exact ⟨hab, hnd⟩
      rw [List.dropLast_cons₂]
      cases rest with
      | nil =>
        have hb : b = '_' := by simpa using hl
        have ha : a ≠ '_' := fun e => hsplit.1 ⟨e, hb⟩
        simpa using ha
      | cons c rest2 =>
        have hih := ih hsplit.2 hl
        rw [List.dropLast_cons₂] at hih ⊢
        rw [List.getLast?_cons_cons]
        exact hih

theorem mem_subNonWordAux_wordChar (l : List Char) :
    ∀ flag c, c ∈ subNonWordAux flag l → isWordChar c = true := by
  induction l with
  | nil => intro flag c hc; simp [subNonWordAux] at hc
  | cons d cs ih =>
    intro flag c hc
    unfold subNonWordAux at hc
    by_cases hw : isWordChar d = true
    · rw [if_pos hw] at hc
      rcases List.mem_cons.mp hc with h1 | h1
      · rw [h1]; exact hw
      · exact ih false c h1
    · rw [if_neg hw] at hc
      cases flag with
      | true =>
        rw [if_pos rfl] at hc
        exact ih true c hc
      | false =>
        rw [if_neg (by simp)] at hc
        rcases List.mem_cons.mp hc with h1 | h1
        · rw [h1]; decide
        · exact ih true c h1

/-- On success, the `.chd` branch of `importpart` renders a part built by
`partInfoChd` from the list name. -/
theorem importpart_chd_ok {env : Env} {sl name filename : String} {count : Nat}
    {tr : List Event} {s : String}
    (h1 : lowerSuffix filename = ".chd")
    (h : importpart env sl name filename count = (tr, .ok s)) :
    ∃ sha1, s = renderPart (partInfoChd sl (getOutputName filename) sha1 count) := by
  unfold importpart at h
  rw [if_pos h1] at h
  simp only [bindDef, pureDef] at h
  obtain ⟨ev1, ev2, r, hhd, hp, htr⟩ := mBind_eq_ok h
  have hname := importhdd_ok hhd
  unfold mPure at hp
  have := congrArg Prod.snd hp
  simp at this
  exact ⟨r.2, by simp [← this, hname]⟩

theorem requireCommands_missing (env : Env) (cmds : List String)
    (h : cmds.filter (fun c => env.which c = false) ≠ []) :
    requireCommands env cmds =
      ([.echoErr ("Required commands not found: "
          ++ joinSpace (cmds.filter (fun c => env.which c = false)))], .exited 1) := by
  unfold requireCommands
  simp only [bindDef, pureDef]
  rw [if_pos (by simpa using List.length_pos.mpr h)]
  simp [mBind, emit, pyExit]

theorem requireCommands_allPresent (env : Env) (cmds : List String)
    (h : cmds.filter (fun c => env.which c = false) = []) :
    requireCommands env cmds = ([], .ok ()) := by
  unfold requireCommands
  simp only [bindDef, pureDef]
  rw [h]
  simp [mPure]

theorem runCommand_fail (env : Env) (cmd : List String) (h : (env.run cmd).1 ≠ 0) :
    runCommand env cmd = ([.ran cmd, .echoErr (env.run cmd).2], .exited 1) := by
  unfold runCommand
  simp only [bindDef, pureDef]
  rw [if_pos h]
  simp [mBind, emit, pyExit]

theorem echoLines_run (l : List String) :
    echoLines l = (l.map Event.echoOut, .ok ()) := by
  induction l with
  | nil => rfl
  | cons s rest ih =>
    unfold echoLines
    simp only [bindDef, pureDef]
    simp [mBind, emit, ih]

theorem noDoubleUnd_dropLast (l : List Char) (h : noDoubleUnd l = true) :
    noDoubleUnd l.dropLast = true := by
  induction l with
  | nil => rfl
  | cons a t ih =>
    cases t with
    | nil => rfl
    | cons b rest =>
      unfold noDoubleUnd at h
      have hsplit : ¬(a = '_' ∧ b = '_') ∧ noDoubleUnd (b :: rest) = true := by
        by_cases hab : a = '_' ∧ b = '_'
        · rw [if_pos hab] at h
          exact absurd h (by simp)
        · rw [if_neg hab] at h
          exact ⟨hab, h⟩
      rw [List.dropLast_cons₂]
      cases rest with
      | nil => rfl
      | cons c rest2 =>
        have hr := ih hsplit.2
        rw [List.dropLast_cons₂] at hr ⊢
        unfold noDoubleUnd
        rw [if_neg hsplit.1]
        exact hr

/-- The characters of a derived output name: the shape of
`getOutputName`'s result as a trimmed `subNonWord` image. -/
theorem getOutputName_data (f : String) :
    (getOutputName f).data =
      (if (subNonWord (pyLower (pyStem (pathName f)))).getLast? = some '_'
        then (subNonWord (pyLower (pyStem (pathName f)))).dropLast
        else subNonWord (pyLower (pyStem (pathName f)))) := rfl

theorem getOutputName_wordChars (f : String) :
    ∀ c ∈ (getOutputName f).data, isWordChar c = true := by
  intro c hc
  rw [getOutputName_data] at hc
  by_cases hcond : (subNonWord (pyLower (pyStem (pathName f)))).getLast? = some '_'
  · rw [if_pos hcond] at hc
    exact mem_subNonWordAux_wordChar _ false c (List.mem_of_mem_dropLast hc)
  · rw [if_neg hcond] at hc
    exact mem_subNonWordAux_wordChar _ false c hc

theorem getOutputName_collapsed (f : String)
    (h : '_' ∉ pyLower (pyStem (pathName f))) :
    noDoubleUnd (getOutputName f).data = true ∧
      (getOutputName f).data.getLast? ≠ some '_' := by
  have hnd := noDoubleUnd_subNonWordAux (pyLower (pyStem (pathName f))) h false
  rw [getOutputName_data]
  by_cases hcond : (subNonWord (pyLower (pyStem (pathName f)))).getLast? = some '_'
  · rw [if_pos hcond]
    exact ⟨noDoubleUnd_dropLast _ hnd, getLast_dropLast_ne _ hnd hcond⟩
  · rw [if_neg hcond]
    exact ⟨hnd, hcond⟩

/-! ### Further concrete environments -/

/-- Only `chdman` on PATH: both `crc32` and `sha1sum` are missing. -/
def envMissing : Env :=
  ⟨fun c => c == "chdman", goodRun, fun _ => 368640, fun _ => false, fun _ => []⟩

/-- Every subprocess fails with captured output `boom`. -/
def envFailTool : Env :=
  ⟨fun _ => true, fun _ => (1, "boom"), fun _ => 368640, fun _ => false, fun _ => []⟩

/-- Tools succeed except the crc32 of `b.img`, which fails. -/
def envFailSecond : Env :=
  ⟨fun _ => true,
    fun cmd => if cmd = ["crc32", "b.img"] then (1, "crc32: read error") else goodRun cmd,
    fun _ => 368640, fun _ => false, fun _ => []⟩

/-- An environment whose `chdman info` output has no `SHA1:` line. -/
def envNoSha1 : Env :=
  ⟨fun _ => true,
    fun cmd =>
      match cmd with
      | "chdman" :: "info" :: _ => (0, "Input file: x.chd\nCompression: lzma\n")
      | _ => (0, ""),
    fun _ => 0, fun _ => true, fun _ => []⟩

/-- An environment whose `chdman info` output has a multi-colon line before the SHA1 line. -/
def envColons : Env :=
  ⟨fun _ => true,
    fun cmd =>
      match cmd with
      | "chdman" :: "info" :: _ => (0, "Time: 12:30:05\nSHA1: feedface\n")
      | _ => (0, ""),
    fun _ => 0, fun _ => true, fun _ => []⟩

/-! ### The claims -/

/-- C10: the SHA1 extraction for `.chd` files is partial.  When the
inspection tool's output has no `SHA1:` line the loop leaves `sha1`
unbound (a `NameError`), and a line with two or more colons makes the
two-place unpacking of `line.split(":")` fail (a `ValueError`); in both
cases `getSha1` ends in an uncaught exception, not a reported import
error, while an output satisfying both assumptions parses fine. -/
theorem c10_sha1_partial :
    getSha1 envNoSha1 "x.chd" =
      ([.ran ["chdman", "info", "-i", "x.chd"]], .raised .nameError)
    ∧ getSha1 envColons "x.chd" =
      ([.ran ["chdman", "info", "-i", "x.chd"]], .raised .valueError)
    ∧ chdSha1Scan ["Input file: x.chd", "SHA1: feedface", ""] = .ok "feedface" := by
  refine ⟨by decide, by decide, rfl⟩

/-- C9: `list` echoes exactly the sorted stems of the glob results, in
order, and completes normally; the sort is lexicographic, membership is
exactly the stems, and an absent or empty list-definition directory
(empty glob) yields an empty result. -/
theorem c9_list_sorted :
    (∀ env, listCmd env = ((getSoftwareLists env).map Event.echoOut, .ok ()))
    ∧ (∀ env, List.Sorted (fun a b : String => a ≤ b) (getSoftwareLists env))
    ∧ (∀ env s, s ∈ getSoftwareLists env ↔
        s ∈ (env.glob (osJoin "hash" "*.xml")).map (fun p => String.mk (pyStem (pathName p))))
    ∧ (∀ env, env.glob (osJoin "hash" "*.xml") = [] → getSoftwareLists env = []) := by
  refine ⟨fun env => echoLines_run _, fun env => ?_, fun env s => ?_, fun env h => ?_⟩
  · exact List.sorted_insertionSort _ _
  · exact (List.perm_insertionSort _ _).mem_iff
  · unfold getSoftwareLists
    rw [h]
    rfl

/-- C9 witness: with an empty glob the catalog is empty and `list`
echoes nothing, exiting normally. -/
theorem c9_list_sorted_witness :
    getSoftwareLists envAllOk = [] ∧ listCmd envAllOk = ([], .ok ()) := by
  have h1 := c9_list_sorted.2.2.2 envAllOk rfl
  have h2 := c9_list_sorted.1 envAllOk
  rw [h1] at h2
  exact ⟨h1, h2⟩

/-- C7: an entry name longer than 16 characters makes `importp` echo a
message to stderr and exit 1 without printing any XML; a 16-character
name is accepted and the import proceeds to print XML on stdout. -/
theorem c7_name_length :
    (∀ env sl name filenames, 16 < name.length →
      importp env sl name filenames =
        ([.echoErr (name ++ " must be 16 chars or less")], .exited 1))
    ∧ runRes (importp envAllOk "pc_xt" "abcdefgh12345678" ["a.img"]) = .ok ()
    ∧ echoOuts (runTrace (importp envAllOk "pc_xt" "abcdefgh12345678" ["a.img"])) ≠ [] := by
  refine ⟨fun env sl name filenames h => ?_, by decide, by decide⟩
  unfold importp
  simp only [bindDef, pureDef]
  rw [if_pos h]
  simp [mBind, emit, pyExit]

/-- C7 witness: a 17-character name is rejected with exit code 1, a
stderr message, and an empty effect trace otherwise. -/
theorem c7_name_length_witness :
    importp envAllOk "pc_xt" "abcdefgh123456789" [] =
      ([.echoErr ("abcdefgh123456789" ++ " must be 16 chars or less")], .exited 1) :=
  c7_name_length.1 envAllOk "pc_xt" "abcdefgh123456789" [] (by decide)

/-- C8: a non-zero exit of any external tool makes `runCommand` echo the
captured output and exit 1; whenever `importp` does not finish normally
nothing is echoed to standard output — in particular a multi-file import
whose second file fails prints no XML for the already-processed first
file. -/
theorem c8_abort :
    (∀ env cmd, (env.run cmd).1 ≠ 0 →
      runCommand env cmd = ([.ran cmd, .echoErr (env.run cmd).2], .exited 1))
    ∧ (∀ env sl name filenames, runRes (importp env sl name filenames) ≠ .ok () →
        echoOuts (runTrace (importp env sl name filenames)) = [])
    ∧ runRes (importp envFailSecond "pc_xt" "game" ["a.img", "b.img"]) = .exited 1
    ∧ Event.echoErr "crc32: read error" ∈ runTrace (importp envFailSecond "pc_xt" "game" ["a.img", "b.img"]) := by
  refine ⟨runCommand_fail, fun env sl name filenames h => ?_, by decide, by decide⟩
  unfold importp runRes runTrace at *
  simp only [bindDef, pureDef] at *
  by_cases hn : name.length > 16
  · rw [if_pos hn] at *
    simp [mBind, emit, pyExit, echoOuts]
  · rw [if_neg hn] at *
    rcases he : importparts env sl name filenames with ⟨ev, res⟩
    have hno := noOut_importparts env sl name filenames
    unfold NoOut at hno
    rw [he] at hno h
    cases res with
    | ok xml => exact absurd (by simp [mBind, emit]) h
    | exited c => simpa [mBind] using hno
    | raised e => simpa [mBind] using hno

/-- C8 witness: a failing tool aborts with its output surfaced and exit
code 1, and the failed two-file import echoes nothing to stdout. -/
theorem c8_abort_witness :
    runCommand envFailTool ["crc32", "x"] =
      ([.ran ["crc32", "x"], .echoErr "boom"], .exited 1)
    ∧ echoOuts (runTrace (importp envFailSecond "pc_xt" "game" ["a.img", "b.img"])) = [] :=
  ⟨c8_abort.1 envFailTool ["crc32", "x"] (by decide),
    c8_abort.2.1 envFailSecond "pc_xt" "game" ["a.img", "b.img"] (by decide)⟩

/-- C3 counterexample: with both `crc32` and `sha1sum` missing, a raw
floppy import first creates the output directory and copies the file,
and only then reports missing executables — and the single message names
only `crc32`, not the also-missing `sha1sum`.  So missing executables
are neither all detected before work starts nor reported as one combined
list for the whole operation. -/
theorem c3_counterexample :
    importp envMissing "pc_xt" "game" ["a.img"] =
      ([.makedirs "roms/pc_xt/game", .copy "a.img" "roms/pc_xt/game",
        .echoErr "Required commands not found: crc32"], .exited 1)
    ∧ envMissing.which "sha1sum" = false := by
  refine ⟨by decide, by decide⟩

/-- C3 (amended): dependency checks run per helper at its point of use:
each `requireCommands` call reports the missing subset of its own
command list as one combined message and exits 1 (and is a no-op when
all are present), but for a raw-floppy import the copy precedes the
first check, as the `importflop` trace shows. -/
theorem c3_dependency_check :
    (∀ env cmds, cmds.filter (fun c => env.which c = false) ≠ [] →
      requireCommands env cmds =
        ([.echoErr ("Required commands not found: "
            ++ joinSpace (cmds.filter (fun c => env.which c = false)))], .exited 1))
    ∧ (∀ env cmds, cmds.filter (fun c => env.which c = false) = [] →
        requireCommands env cmds = ([], .ok ()))
    ∧ importflop envMissing "pc_xt" "game" "a.img" =
        ([.makedirs "roms/pc_xt/game", .copy "a.img" "roms/pc_xt/game",
          .echoErr "Required commands not found: crc32"], .exited 1) := by
  exact ⟨requireCommands_missing, requireCommands_allPresent, by decide⟩

/-- C3 witness: concrete per-helper checks — `crc32` alone is reported
missing by its helper's check even though `sha1sum` is missing too, and
a check whose commands are all present does nothing. -/
theorem c3_dependency_check_witness :
    requireCommands envMissing ["crc32"] =
      ([.echoErr "Required commands not found: crc32"], .exited 1)
    ∧ requireCommands envMissing ["chdman"] = ([], .ok ()) :=
  ⟨c3_dependency_check.1 envMissing ["crc32"] (by decide),
    c3_dependency_check.2.1 envMissing ["chdman"] (by decide)⟩

/-- C4 counterexample: underscores are word characters for the ASCII
`\W+` substitution, so `ab!__` collapses to `ab__` — the run `!__` does
not become a single underscore, and after the single trailing trim the
result still ends in an underscore; likewise the punctuation run `-_-`
yields three underscores, not one. -/
theorem c4_counterexample :
    getOutputName "ab!__.img" = "ab__"
    ∧ (getOutputName "ab!__.img").data.getLast? = some '_'
    ∧ getOutputName "a-_-b.img" = "a___b" := by
  refine ⟨by decide, by decide, by decide⟩

/-- C4 (amended): every character of a derived output name is a word
character, and when the lowercased stem contains no underscore of its
own, each punctuation/whitespace run collapses to a single underscore
(no two adjacent underscores remain) and the result never ends in an
underscore.  Stems with their own underscores keep them verbatim, so
only this restricted form of the collapse claim holds. -/
theorem c4_output_name :
    (∀ f : String, ∀ c ∈ (getOutputName f).data, isWordChar c = true)
    ∧ (∀ f : String, '_' ∉ pyLower (pyStem (pathName f)) →
        noDoubleUnd (getOutputName f).data = true ∧
          (getOutputName f).data.getLast? ≠ some '_') :=
  ⟨getOutputName_wordChars, getOutputName_collapsed⟩

/-- C4 witness: the spec's own example name, whose stem has no
underscore, collapses cleanly and does not end in an underscore. -/
theorem c4_output_name_witness :
    isWordChar 'm' = true
    ∧ (noDoubleUnd (getOutputName "My Game!.img").data = true
        ∧ (getOutputName "My Game!.img").data.getLast? ≠ some '_') :=
  ⟨c4_output_name.1 "My Game!.img" 'm' (by decide),
    c4_output_name.2 "My Game!.img" (by decide)⟩

/-- C1 counterexample: in a two-file import the FIRST file's part is
already numbered — the XML contains `<part name="flop1"` and no
unnumbered `<part name="flop" ...>` at all, contradicting the claim that
the first file's part name carries no suffix. -/
theorem c1_counterexample :
    resMap (fun xml =>
        (hasSub xml "<part name=\"flop1\"", hasSub xml "<part name=\"flop\" "))
      (runRes (importparts envSmallFlop "pc_xt" "gamex" ["a.img", "b.img"])) =
      .ok (true, false) := by
  decide

/-- C1 (amended): a single-file import passes count 0 and the part name
gets no suffix; a multi-file import starts the count at 1 and increments
it per file in occurrence order (not per kind), so every part — the
first included — is numbered 1, 2, 3, … across the whole call. -/
theorem c1_numbering :
    (∀ base, countedName base 0 = base)
    ∧ (∀ base k, 0 < k → countedName base k = base ++ toString k)
    ∧ (∀ env sl name f fs c, importpartsLoop env sl name (f :: fs) c =
        mBind (importpart env sl name f c) (fun p =>
          mBind (importpartsLoop env sl name fs (c + 1)) (fun ps => mPure (p :: ps))))
    ∧ (∀ env sl name f, importparts env sl name [f] =
        mBind (importpartsLoop env sl name [f] 0)
          (fun parts => mPure (renderSoftware name parts)))
    ∧ (∀ env sl name f1 f2 fs, importparts env sl name (f1 :: f2 :: fs) =
        mBind (importpartsLoop env sl name (f1 :: f2 :: fs) 1)
          (fun parts => mPure (renderSoftware name parts)))
    ∧ resMap (fun xml =>
        (hasSub xml "<part name=\"flop1\" interface=",
         hasSub xml "<part name=\"hdd2\" interface=",
         hasSub xml "<part name=\"flop3\" interface=",
         hasSub xml "<part name=\"flop\" ", hasSub xml "<part name=\"hdd\" "))
      (runRes (importparts envSmallFlop "pc_xt" "game" ["a.img", "b.chd", "c.img"])) =
      .ok (true, true, true, false, false) := by
  refine ⟨fun base => rfl, fun base k h => ?_, fun env sl name f fs c => rfl,
    fun env sl name f => rfl, fun env sl name f1 f2 fs => rfl, by decide⟩
  unfold countedName
  rw [if_pos h]

/-- C1 witness: a positive count is appended, count 0 is not. -/
theorem c1_numbering_witness :
    countedName "flop" 2 = "flop" ++ toString 2 ∧ countedName "flop" 0 = "flop" :=
  ⟨c1_numbering.2.1 "flop" 2 (by decide), c1_numbering.1 "flop"⟩

/-- C2 counterexample: a raw-floppy import of `My Game!.img` emits a
`<rom>` whose name is the verbatim base name `My Game!.img`; the
naming-rule-derived `my_game` appears nowhere in the part XML, even
though `getOutputName` would produce it. -/
theorem c2_counterexample :
    resMap (fun xml => (hasSub xml "<rom name=\"My Game!.img\"", hasSub xml "my_game"))
      (runRes (importpart envAllOk "pc_xt" "mygame" "My Game!.img" 0)) = .ok (true, false)
    ∧ getOutputName "My Game!.img" = "my_game" := by
  refine ⟨by decide, by decide⟩

/-- C2 (amended): for raw-floppy imports the file is copied verbatim
into the output directory and the emitted rom name is the input's base
name, extension included — the output-naming rule is not applied there;
it is applied to the converted outputs of the `.chd` and `.iso`
branches. -/
theorem c2_naming :
    (∀ env sl name filename tr r, importflop env sl name filename = (tr, PyRes.ok r) →
        r.1 = String.mk (pathName filename)
          ∧ Event.copy filename (osJoin (osJoin "roms" sl) name) ∈ tr)
    ∧ (∀ env sl name filename tr r, importhdd env sl name filename = (tr, PyRes.ok r) →
        r.1 = getOutputName filename)
    ∧ (∀ env sl name filename tr r, importcd env sl name filename = (tr, PyRes.ok r) →
        r.1 = getOutputName filename) := by
  refine ⟨fun env sl name filename tr r h => ?_,
    fun env sl name filename tr r h => importhdd_ok h,
    fun env sl name filename tr r h => importcd_ok h⟩
  obtain ⟨h1, h2, h3⟩ := importflop_ok h
  exact ⟨h1, h3⟩

/-- C2 witness: the concrete floppy run returns the verbatim base name
and records the verbatim copy; the concrete hard-disk run returns the
rule-derived name. -/
theorem c2_naming_witness :
    (("My Game!.img", "0123abcd", "cafe1234", 1474560).1 =
        String.mk (pathName "My Game!.img")
      ∧ Event.copy "My Game!.img" (osJoin (osJoin "roms" "pc_xt") "mygame") ∈
        [Event.makedirs "roms/pc_xt/mygame", Event.copy "My Game!.img" "roms/pc_xt/mygame",
         Event.ran ["crc32", "My Game!.img"], Event.ran ["sha1sum", "My Game!.img"]])
    ∧ ("disk", "feedface").1 = getOutputName "Disk.chd" :=
  ⟨c2_naming.1 envAllOk "pc_xt" "mygame" "My Game!.img"
      [Event.makedirs "roms/pc_xt/mygame", Event.copy "My Game!.img" "roms/pc_xt/mygame",
       Event.ran ["crc32", "My Game!.img"], Event.ran ["sha1sum", "My Game!.img"]]
      ("My Game!.img", "0123abcd", "cafe1234", 1474560) (by decide),
    c2_naming.2.1 envAllOk "ibm5170_hdd" "game" "Disk.chd"
      [Event.makedirs "roms/ibm5170_hdd/game",
       Event.ran ["chdman", "copy", "-c", "lzma,zlib,huff,flac", "-i", "Disk.chd",
         "-o", "roms/ibm5170_hdd/game/disk.chd"],
       Event.ran ["chdman", "info", "-i", "roms/ibm5170_hdd/game/disk.chd"]]
      ("disk", "feedface") (by decide)⟩

/-- C5: the floppy branch's interface is a function of the byte size
only — 368640 and 1228800 map to `floppy_5_25`, 737280 and 1474560 to
`floppy_3_5`, anything else to the placeholder `TODO` — and on success
the floppy branch of `importpart` renders its part with exactly
`flopInterface` of the input file's size. -/
theorem c5_flop_interface :
    (∀ output_name sha1 crc32 count size,
        (partInfoFlop output_name sha1 crc32 size count).interface = flopInterface size)
    ∧ flopInterface 368640 = "floppy_5_25" ∧ flopInterface 1228800 = "floppy_5_25"
    ∧ flopInterface 737280 = "floppy_3_5" ∧ flopInterface 1474560 = "floppy_3_5"
    ∧ (∀ size, size ≠ 368640 → size ≠ 1228800 → size ≠ 737280 → size ≠ 1474560 →
        flopInterface size = "TODO")
    ∧ (∀ env sl name filename count tr s,
        lowerSuffix filename ≠ ".chd" → lowerSuffix filename ≠ ".iso" →
        importpart env sl name filename count = (tr, PyRes.ok s) →
        ∃ sha1 crc32, s = renderPart (partInfoFlop (String.mk (pathName filename))
          sha1 crc32 (env.size filename) count)) := by
  refine ⟨fun o s c k size => rfl, rfl, rfl, rfl, rfl, fun size h1 h2 h3 h4 => ?_,
    fun env sl name filename count tr s h1 h2 h => importpart_flop_ok h1 h2 h⟩
  unfold flopInterface
  rw [if_neg (by rintro (h | h) <;> [exact h1 h; exact h2 h]),
    if_neg (by rintro (h | h) <;> [exact h3 h; exact h4 h])]

/-- C5 witness: an unrecognized size yields the placeholder, and the
concrete raw-floppy run renders its part through `partInfoFlop` at the
file's size. -/
theorem c5_flop_interface_witness :
    flopInterface 999999 = "TODO"
    ∧ ∃ sha1 crc32,
        renderPart (partInfoFlop "My Game!.img" "0123abcd" "cafe1234" 1474560 0) =
          renderPart (partInfoFlop (String.mk (pathName "My Game!.img")) sha1 crc32
            (envAllOk.size "My Game!.img") 0) :=
  ⟨c5_flop_interface.2.2.2.2.2.1 999999 (by decide) (by decide) (by decide) (by decide),
    c5_flop_interface.2.2.2.2.2.2 envAllOk "pc_xt" "mygame" "My Game!.img" 0
      [Event.makedirs "roms/pc_xt/mygame", Event.copy "My Game!.img" "roms/pc_xt/mygame",
       Event.ran ["crc32", "My Game!.img"], Event.ran ["sha1sum", "My Game!.img"]]
      (renderPart (partInfoFlop "My Game!.img" "0123abcd" "cafe1234" 1474560 0))
      (by decide) (by decide) (by decide)⟩

/-- C6: the `.chd` branch's interface is a function of the list name
only — `ibm5150_hdd` maps to `st_hdd`, `ibm5170_hdd` to `ide_hdd`, and
every other list name to `scsi_hdd` — and on success the `.chd` branch
of `importpart` renders its part with exactly `hddInterface` of the
list name. -/
theorem c6_hdd_interface :
    (∀ sl output_name sha1 count,
        (partInfoChd sl output_name sha1 count).interface = hddInterface sl)
    ∧ hddInterface "ibm5150_hdd" = "st_hdd"
    ∧ hddInterface "ibm5170_hdd" = "ide_hdd"
    ∧ (∀ sl, sl ≠ "ibm5150_hdd" → sl ≠ "ibm5170_hdd" → hddInterface sl = "scsi_hdd")
    ∧ (∀ env sl name filename count tr s, lowerSuffix filename = ".chd" →
        importpart env sl name filename count = (tr, PyRes.ok s) →
        ∃ sha1, s = renderPart (partInfoChd sl (getOutputName filename) sha1 count)) := by
  refine ⟨fun sl o s k => rfl, rfl, rfl, fun sl h1 h2 => ?_,
    fun env sl name filename count tr s h1 h => importpart_chd_ok h1 h⟩
  unfold hddInterface
  rw [if_neg h1, if_neg h2]

/-- C6 witness: an unlisted list name yields `scsi_hdd`, and the
concrete `.chd` run against `ibm5170_hdd` renders its part through
`partInfoChd` of that list name. -/
theorem c6_hdd_interface_witness :
    hddInterface "pc98_hdd" = "scsi_hdd"
    ∧ ∃ sha1,
        renderPart (partInfoChd "ibm5170_hdd" "disk" "feedface" 0) =
          renderPart (partInfoChd "ibm5170_hdd" (getOutputName "Disk.chd") sha1 0) :=
  ⟨c6_hdd_interface.2.2.2.1 "pc98_hdd" (by decide) (by decide),
    c6_hdd_interface.2.2.2.2 envAllOk "ibm5170_hdd" "game" "Disk.chd" 0
      [Event.makedirs "roms/ibm5170_hdd/game",
       Event.ran ["chdman", "copy", "-c", "lzma,zlib,huff,flac", "-i", "Disk.chd",
         "-o", "roms/ibm5170_hdd/game/disk.chd"],
       Event.ran ["chdman", "info", "-i", "roms/ibm5170_hdd/game/disk.chd"]]
      (renderPart (partInfoChd "ibm5170_hdd" "disk" "feedface" 0))
      (by decide) (by decide)⟩

end Slmgr
